import Mathlib

/-!
Verification of the attendance derivation engine of the employee biometrics
dashboard (`src/App.jsx`).  The engine is a set of pure functions over
per-day attendance records: a clock-time parser (`timeToHours`), a lateness
classifier (`isLate`), a working-hours calculator (`getWorkingHours`), an
absence enumerator (`getAbsentDates`), summary aggregates
(`totalAttendance`, `avgWorkingHours`) and a check-in histogram binner
(`checkInDistributionData`).

Embedding conventions:
* A JavaScript number is modelled as `Option ℚ`, with `none` playing the
  role of `NaN`; arithmetic, `Math.min`/`Math.max` and comparisons
  propagate/absorb `none` exactly as JS does for `NaN`.
* JS `Number(...)` string coercion and `parseFloat` are modelled on the
  decimal grammar `[+-]? digits [. digits]` (after whitespace trim;
  `Number("") = 0`); strings outside that grammar coerce to `NaN`.  This is
  faithful for clock-time components and for the working-hours field.
* Calendar dates are modelled as natural day numbers (days since the Unix
  epoch, 1970-01-01, a Thursday); the weekday name of day `d` is
  determined by `(d + 4) % 7` with `0 = Sunday`, mirroring the
  `toLocaleDateString` weekday used by the source.
* A record's fields are the strings the source reads
  (`Check_In`, `Check_Out`, `Working_Hours`, `Status`); the sentinel for a
  missing time is the empty string or the literal `"N/A"`, exactly the
  values the source tests for.
-/

namespace Biometrics

/-- A JavaScript number: `none` stands for `NaN`. -/
abbrev JSNum := Option ℚ

/-- JS addition: `NaN` propagates. -/
def jadd : JSNum → JSNum → JSNum
  | some a, some b => some (a + b)
  | _, _ => none

/-- JS subtraction: `NaN` propagates. -/
def jsub : JSNum → JSNum → JSNum
  | some a, some b => some (a - b)
  | _, _ => none

/-- JS division by a constant (all source call sites divide by a nonzero
literal or a positive record count): `NaN` propagates. -/
def jdiv (x : JSNum) (c : ℚ) : JSNum := x.map (· / c)

/-- `Math.min`: returns `NaN` when either argument is `NaN`. -/
def jmin : JSNum → JSNum → JSNum
  | some a, some b => some (min a b)
  | _, _ => none

/-- `Math.max`: returns `NaN` when either argument is `NaN`. -/
def jmax : JSNum → JSNum → JSNum
  | some a, some b => some (max a b)
  | _, _ => none

/-- JS `>`: any comparison with `NaN` is false. -/
def jgtB : JSNum → JSNum → Bool
  | some a, some b => decide (b < a)
  | _, _ => false

/-- JS `<`: any comparison with `NaN` is false. -/
def jltB : JSNum → JSNum → Bool
  | some a, some b => decide (a < b)
  | _, _ => false

/-- JS `>=`: any comparison with `NaN` is false. -/
def jgeB : JSNum → JSNum → Bool
  | some a, some b => decide (b ≤ a)
  | _, _ => false

/-- JS `x || 0` applied to a number-or-undefined: `NaN`, `undefined` and
`0` are falsy and yield `0`; any other number is returned unchanged. -/
def jsOrZero : JSNum → JSNum
  | none => some 0
  | some q => if q = 0 then some 0 else some q

/-- JS whitespace test for the characters that `Number`/`parseFloat` trim. -/
def isWS (c : Char) : Bool := c = ' ' || c = '\t' || c = '\n' || c = '\r'

/-- Trim leading and trailing JS whitespace from a character list. -/
def trimChars (l : List Char) : List Char :=
  ((l.dropWhile isWS).reverse.dropWhile isWS).reverse

/-- Numeric value of a digit string (only meaningful when all characters
are decimal digits). -/
def natVal (l : List Char) : ℕ :=
  l.foldl (fun a c => 10 * a + (c.toNat - 48)) 0

/-- Parse an unsigned decimal literal `digits [. digits]` (also `.digits`
and `digits.`); `none` for anything else, modelling `NaN`. -/
def parseDec (l : List Char) : Option ℚ :=
  let ip := l.takeWhile (fun c => c ≠ '.')
  let rest := l.dropWhile (fun c => c ≠ '.')
  match rest with
  | [] => if ip ≠ [] ∧ ip.all Char.isDigit then some ((natVal ip : ℕ) : ℚ) else none
  | _ :: fp =>
      if fp.any (fun c => c = '.') then none
      else if ip = [] ∧ fp = [] then none
      else if ip.all Char.isDigit ∧ fp.all Char.isDigit then
        some ((natVal ip : ℚ) + (natVal fp : ℚ) / 10 ^ fp.length)
      else none

/-- JS `Number(string)` coercion on the decimal grammar: trims whitespace,
maps the empty string to `0`, handles an optional sign, and yields `NaN`
(`none`) for non-numeric strings. -/
def jsNumberChars (l : List Char) : Option ℚ :=
  let t := trimChars l
  if t = [] then some 0
  else if t.head? = some '-' then (parseDec (t.drop 1)).map (fun q => -q)
  else if t.head? = some '+' then parseDec (t.drop 1)
  else parseDec t

/-- Parse the longest unsigned decimal prefix, as `parseFloat` does after
the sign; `none` when no digits are found. -/
def parsePrefixDec (l : List Char) : Option ℚ :=
  let ip := l.takeWhile Char.isDigit
  let rest := l.drop ip.length
  match rest with
  | '.' :: r2 =>
      let fp := r2.takeWhile Char.isDigit
      if ip = [] ∧ fp = [] then none
      else some ((natVal ip : ℕ) + (natVal fp : ℕ) / (10 : ℚ) ^ fp.length)
  | _ => if ip = [] then none else some ((natVal ip : ℕ) : ℚ)

/-- JS `parseFloat(string)`: trims leading whitespace, parses an optional
sign and then the longest decimal prefix; `NaN` (`none`) when the string
does not start with a number. -/
def jsParseFloatChars (l : List Char) : Option ℚ :=
  let t := l.dropWhile isWS
  if t.head? = some '-' then (parsePrefixDec (t.drop 1)).map (fun q => -q)
  else if t.head? = some '+' then parsePrefixDec (t.drop 1)
  else parsePrefixDec t

/-- `parseFloat` on a Lean string. -/
def jsParseFloat (s : String) : Option ℚ := jsParseFloatChars s.toList

/-- JS `String.split(':')` on a character list: splits at every colon,
keeping empty components, never returning an empty list. -/
def splitColon : List Char → List Char → List (List Char)
  | [], acc => [acc.reverse]
  | c :: cs, acc =>
      if c = ':' then acc.reverse :: splitColon cs [] else splitColon cs (c :: acc)

/-- `timeToHours` from the source: the sentinel (`''`/`'N/A'`) maps to `0`;
otherwise split on `:` into `[hours, minutes, seconds]` (a missing
component is `undefined`, i.e. `NaN` after coercion, except that
`seconds || 0` recovers `0`), and return
`hours + minutes / 60 + (seconds || 0) / 3600`. -/
def timeToHours (time : String) : JSNum :=
  if time = "" ∨ time = "N/A" then some 0
  else
    let comps := splitColon time.toList []
    let hours : JSNum := match comps.get? 0 with
      | some l => jsNumberChars l
      | none => none
    let minutes : JSNum := match comps.get? 1 with
      | some l => jsNumberChars l
      | none => none
    let seconds : JSNum := match comps.get? 2 with
      | some l => jsNumberChars l
      | none => none
    jadd (jadd hours (jdiv minutes 60)) (jdiv (jsOrZero seconds) 3600)

/-- `isLate` from the source: sentinel check-ins are never late; otherwise
a check-in is late exactly when its fractional-hours value exceeds `9.5`. -/
def isLate (checkIn : String) : Bool :=
  if checkIn = "" ∨ checkIn = "N/A" then false
  else jgtB (timeToHours checkIn) (some (19 / 2))

/-- One raw attendance record, with the string fields the engine reads.
`Date` is a day number (days since 1970-01-01). -/
structure AttendanceRecord where
  Employee_ID : String
  Employee_Name : String
  Date : ℕ
  Check_In : String
  Check_Out : String
  Working_Hours : String
  Status : String
  deriving DecidableEq

/-- The check-in-present half of `getWorkingHours` (source lines after the
first sentinel test): a sentinel check-out yields the truncated shift
`17.0 - checkInHours`; with both times present, a numeric
`Working_Hours` field is preferred over the raw clock difference, and the
cap applies `Math.min(·, 7.5)` to the reported value but
`Math.max(0, Math.min(·, 7.5))` to the raw difference. -/
def workingHoursCheckInPresent (r : AttendanceRecord) (cap : Bool) : JSNum :=
  let checkInHours := timeToHours r.Check_In
  let checkOutHours := timeToHours r.Check_Out
  if r.Check_Out = "" ∨ r.Check_Out = "N/A" then
    let rawHours := jsub (some 17) checkInHours
    if cap then jmax (some 0) (jmin rawHours (some (15 / 2))) else rawHours
  else
    let rawHours := jsub checkOutHours checkInHours
    let actualWorkingHours := jsParseFloat r.Working_Hours
    if actualWorkingHours.isSome = true ∧ r.Working_Hours ≠ "N/A" then
      if cap then jmin actualWorkingHours (some (15 / 2)) else actualWorkingHours
    else
      if cap then jmax (some 0) (jmin rawHours (some (15 / 2))) else rawHours

/-- `getWorkingHours` from the source.  Constants: shift start `9.5`,
shift end `17.0`, policy maximum `7.5`.  A sentinel check-in with a real
check-out yields `checkOutHours - 9.5`; both sentinels yield `0`;
otherwise the check-in-present branches apply. -/
def getWorkingHours (r : AttendanceRecord) (cap : Bool) : JSNum :=
  if r.Check_In = "" ∨ r.Check_In = "N/A" then
    if ¬(r.Check_Out = "" ∨ r.Check_Out = "N/A") then
      let rawHours := jsub (timeToHours r.Check_Out) (some (19 / 2))
      if cap then jmax (some 0) (jmin rawHours (some (15 / 2))) else rawHours
    else some 0
  else workingHoursCheckInPresent r cap

/-- `totalAttendance` from the source: the number of records whose status
is `PRESENT`. -/
def totalAttendance (records : List AttendanceRecord) : ℕ :=
  (records.filter (fun r => r.Status == "PRESENT")).length

/-- Weekday name of a day number (days since 1970-01-01, a Thursday),
mirroring the long weekday names the source obtains from
`toLocaleDateString`. -/
def weekdayName (d : ℕ) : String :=
  match (d + 4) % 7 with
  | 0 => "Sunday"
  | 1 => "Monday"
  | 2 => "Tuesday"
  | 3 => "Wednesday"
  | 4 => "Thursday"
  | 5 => "Friday"
  | _ => "Saturday"

/-- The source's weekend test: the weekday name is Saturday or Sunday. -/
def isWeekendDay (d : ℕ) : Bool :=
  weekdayName d == "Saturday" || weekdayName d == "Sunday"

/-- `getAbsentDates` from the source: with both range bounds set, walk
every day `d` from `fromDate` to `toDate` inclusive; `d` is absent when
either no record carries that date and it is not a weekend, or some
record carries that date with status `ABSENT`.  Each absent day yields a
`(date, weekdayName)` pair.  A missing bound yields the empty list. -/
def getAbsentDates (records : List AttendanceRecord)
    (fromDate toDate : Option ℕ) : List (ℕ × String) :=
  match fromDate, toDate with
  | some s, some e =>
      let recordDates := records.map (fun r => r.Date)
      ((List.range' s (e + 1 - s)).filter (fun d =>
          (!(recordDates.contains d) && !(isWeekendDay d)) ||
          (records.find? (fun r => r.Date == d && r.Status == "ABSENT")).isSome)).map
        (fun d => (d, weekdayName d))
  | _, _ => []

/-- Sum of capped working hours over a record set, as the source's
`reduce((sum, r) => sum + getWorkingHours(r), 0)`. -/
def sumWorkingHours (records : List AttendanceRecord) : JSNum :=
  records.foldl (fun acc r => jadd acc (getWorkingHours r true)) (some 0)

/-- A JS value that is either a number or a string (the type of the
source's `avgWorkingHours`, which is `0` or a `toFixed(2)` string). -/
inductive JSVal where
  | num (q : ℚ)
  | str (s : String)
  deriving DecidableEq

/-- JS `Number.toFixed(2)` on our number model: `NaN` prints as `"NaN"`;
otherwise the sign is extracted, the magnitude is rounded to the nearest
multiple of `1/100` (ties away from zero, per the ECMAScript rule that
picks the larger scaled integer), and the result is printed with exactly
two decimals. -/
def toFixed2 (x : JSNum) : String :=
  match x with
  | none => "NaN"
  | some q =>
      let sign := if q < 0 then "-" else ""
      let a := if q < 0 then -q else q
      let n : ℕ := (⌊a * 100 + 1 / 2⌋).toNat
      sign ++ Nat.repr (n / 100) ++ "." ++
        (if n % 100 < 10 then "0" else "") ++ Nat.repr (n % 100)

/-- `avgWorkingHours` from the source: for a non-empty record set, the sum
of capped working hours over ALL records divided by the record count,
rendered with `toFixed(2)`; for an empty set, the number `0`. -/
def avgWorkingHours (records : List AttendanceRecord) : JSVal :=
  if 0 < records.length then
    JSVal.str (toFixed2 (jdiv (sumWorkingHours records) (records.length : ℚ)))
  else JSVal.num 0

/-- The eight check-in histogram bucket names, in the source's fixed
order. -/
def checkInBinNames : List String :=
  ["Before 8 AM", "8:00 - 8:59 AM", "9:00 - 9:29 AM", "9:30 - 10:29 AM (Late)",
   "10:30 - 11:29 AM (Late)", "11:30 AM - 12:29 PM (Late)",
   "After 12:30 PM (Late)", "Missing Check-In"]

/-- Index of the bucket a record falls into, following the source's
`if`/`else` chain: a present check-in is classified by its fractional
hours (a `NaN` value fails every comparison and lands in the overflow
bucket 6), a sentinel check-in lands in the missing bucket 7. -/
def checkInBucket (r : AttendanceRecord) : ℕ :=
  if r.Check_In ≠ "" ∧ r.Check_In ≠ "N/A" then
    let h := timeToHours r.Check_In
    if jltB h (some 8) then 0
    else if jgeB h (some 8) && jltB h (some 9) then 1
    else if jgeB h (some 9) && jltB h (some (19 / 2)) then 2
    else if jgeB h (some (19 / 2)) && jltB h (some (21 / 2)) then 3
    else if jgeB h (some (21 / 2)) && jltB h (some (23 / 2)) then 4
    else if jgeB h (some (23 / 2)) && jltB h (some (25 / 2)) then 5
    else 6
  else 7

/-- `checkInDistributionData` from the source, as the ordered list of
`(bucketName, count)` pairs produced for the histogram. -/
def checkInDistributionData (records : List AttendanceRecord) : List (String × ℕ) :=
  (List.range 8).map (fun i =>
    (checkInBinNames.getD i "", records.countP (fun r => checkInBucket r == i)))

/-- The claim's reading of the average (spec §4.4): mean of capped working
hours over only the records with strictly positive capped hours, rendered
with two decimals, and the literal `"0.00"` when no record qualifies. -/
def claimedAvgWorkingHours (records : List AttendanceRecord) : JSVal :=
  let pos := records.filter (fun r => jgtB (getWorkingHours r true) (some 0))
  if 0 < pos.length then
    JSVal.str (toFixed2 (jdiv
      (pos.foldl (fun acc r => jadd acc (getWorkingHours r true)) (some 0))
      (pos.length : ℚ)))
  else JSVal.str "0.00"

/-- The amended claim's mean: capped working hours summed over all records
and divided by the record count, rendered with two decimals. -/
def specMeanAllRecords (records : List AttendanceRecord) : String :=
  toFixed2 (jdiv (sumWorkingHours records) (records.length : ℚ))

/-- The character for decimal digit `k`. -/
def dChar (k : ℕ) : Char := Char.ofNat (48 + k)

/-- The canonical `HH:MM:SS` string for a clock time, two digits per
component. -/
def mkClock (h m s : ℕ) : String :=
  String.mk [dChar (h / 10), dChar (h % 10), ':', dChar (m / 10), dChar (m % 10),
             ':', dChar (s / 10), dChar (s % 10)]

theorem dChar_ne_colon : ∀ k, k < 10 → dChar k ≠ ':' := by decide

theorem jsNumberChars_two_digits : ∀ a, a < 10 → ∀ b, b < 10 →
    jsNumberChars [dChar a, dChar b] = some ((10 * a + b : ℕ) : ℚ) := by decide

theorem splitColon_clock (a b c d e f : Char)
    (ha : a ≠ ':') (hb : b ≠ ':') (hc : c ≠ ':') (hd : d ≠ ':')
    (he : e ≠ ':') (hf : f ≠ ':') :
    splitColon [a, b, ':', c, d, ':', e, f] [] = [[a, b], [c, d], [e, f]] := by
  simp [splitColon, ha, hb, hc, hd, he, hf]

theorem jsOrZero_some (q : ℚ) : jsOrZero (some q) = some q := by
  by_cases h : q = 0 <;> simp [jsOrZero, h]

theorem mkClock_ne_empty (h m s : ℕ) : mkClock h m s ≠ "" := by
  intro he
  have := congrArg (fun t : String => t.toList.length) he
  simp [mkClock] at this

theorem mkClock_ne_na (h m s : ℕ) : mkClock h m s ≠ "N/A" := by
  intro he
  have := congrArg (fun t : String => t.toList.length) he
  simp [mkClock] at this

/-- Evaluation of the time parser on a well-formed two-digit clock string:
the result is the exact fractional-hours rational. -/
theorem timeToHours_mkClock (h m s : ℕ) (hh : h < 100) (hm : m < 100) (hs : s < 100) :
    timeToHours (mkClock h m s) = some ((h : ℚ) + (m : ℚ) / 60 + (s : ℚ) / 3600) := by
  have hd1 : h / 10 < 10 := by omega
  have hd2 : h % 10 < 10 := by omega
  have hd3 : m / 10 < 10 := by omega
  have hd4 : m % 10 < 10 := by omega
  have hd5 : s / 10 < 10 := by omega
  have hd6 : s % 10 < 10 := by omega
  have hlist : (mkClock h m s).toList =
      [dChar (h / 10), dChar (h % 10), ':', dChar (m / 10), dChar (m % 10),
       ':', dChar (s / 10), dChar (s % 10)] := rfl
  rw [timeToHours, if_neg (by
    rintro (he | he)
    · exact mkClock_ne_empty h m s he
    · exact mkClock_ne_na h m s he)]
  rw [hlist, splitColon_clock _ _ _ _ _ _
    (dChar_ne_colon _ hd1) (dChar_ne_colon _ hd2) (dChar_ne_colon _ hd3)
    (dChar_ne_colon _ hd4) (dChar_ne_colon _ hd5) (dChar_ne_colon _ hd6)]
  simp only [List.get?]
  rw [jsNumberChars_two_digits _ hd1 _ hd2, jsNumberChars_two_digits _ hd3 _ hd4,
    jsNumberChars_two_digits _ hd5 _ hd6]
  have e1 : 10 * (h / 10) + h % 10 = h := by omega
  have e2 : 10 * (m / 10) + m % 10 = m := by omega
  have e3 : 10 * (s / 10) + s % 10 = s := by omega
  rw [e1, e2, e3, jsOrZero_some]
  simp [jadd, jdiv]

theorem timeToHours_000000 : timeToHours "00:00:00" = some 0 := by
  rw [show ("00:00:00" : String) = mkClock 0 0 0 from by decide,
    timeToHours_mkClock 0 0 0 (by norm_num) (by norm_num) (by norm_num)]
  norm_num

theorem timeToHours_090000 : timeToHours "09:00:00" = some 9 := by
  rw [show ("09:00:00" : String) = mkClock 9 0 0 from by decide,
    timeToHours_mkClock 9 0 0 (by norm_num) (by norm_num) (by norm_num)]
  norm_num

theorem timeToHours_093000 : timeToHours "09:30:00" = some (19 / 2) := by
  rw [show ("09:30:00" : String) = mkClock 9 30 0 from by decide,
    timeToHours_mkClock 9 30 0 (by norm_num) (by norm_num) (by norm_num)]
  norm_num

theorem timeToHours_100000 : timeToHours "10:00:00" = some 10 := by
  rw [show ("10:00:00" : String) = mkClock 10 0 0 from by decide,
    timeToHours_mkClock 10 0 0 (by norm_num) (by norm_num) (by norm_num)]
  norm_num

theorem timeToHours_170000 : timeToHours "17:00:00" = some 17 := by
  rw [show ("17:00:00" : String) = mkClock 17 0 0 from by decide,
    timeToHours_mkClock 17 0 0 (by norm_num) (by norm_num) (by norm_num)]
  norm_num

theorem timeToHours_180000 : timeToHours "18:00:00" = some 18 := by
  rw [show ("18:00:00" : String) = mkClock 18 0 0 from by decide,
    timeToHours_mkClock 18 0 0 (by norm_num) (by norm_num) (by norm_num)]
  norm_num

theorem jsParseFloat_na : jsParseFloat "N/A" = none := by decide

theorem jsParseFloat_neg2 : jsParseFloat "-2" = some (-2) := by
  simp [jsParseFloat, jsParseFloatChars, parsePrefixDec, natVal, isWS]

/-- C7: a record whose check-in and check-out are both missing or sentinel
has working hours `0` in both the capped and the uncapped mode. -/
theorem workingHours_both_missing_zero (r : AttendanceRecord) (cap : Bool)
    (hin : r.Check_In = "" ∨ r.Check_In = "N/A")
    (hout : r.Check_Out = "" ∨ r.Check_Out = "N/A") :
    getWorkingHours r cap = some 0 := by
  rcases hin with h1 | h1 <;> rcases hout with h2 | h2 <;>
    simp [getWorkingHours, h1, h2]

theorem workingHours_both_missing_zero_witness :
    getWorkingHours ⟨"E1", "A", 0, "", "N/A", "8.0", "ABSENT"⟩ true = some 0 :=
  workingHours_both_missing_zero _ true (Or.inl rfl) (Or.inr rfl)

/-- C6: `isLate` is `false` on the sentinels, and on any other check-in
string that parses to fractional hours `q` it is `false` when
`q ≤ 9.5` and `true` when `q > 9.5`. -/
theorem isLate_spec :
    isLate "" = false ∧ isLate "N/A" = false ∧
    ∀ (s : String) (q : ℚ), s ≠ "" → s ≠ "N/A" → timeToHours s = some q →
      (q ≤ 19 / 2 → isLate s = false) ∧ (19 / 2 < q → isLate s = true) := by
  refine ⟨by simp [isLate], by simp [isLate], ?_⟩
  intro s q h1 h2 h3
  constructor <;> intro h
  · simp only [isLate, h1, h2, or_self, if_false, h3, jgtB]
    simpa using not_lt.mpr h
  · simp only [isLate, h1, h2, or_self, if_false, h3, jgtB]
    simpa using h

theorem isLate_spec_witness : isLate "10:00:00" = true ∧ isLate "09:30:00" = false := by
  constructor
  · exact (isLate_spec.2.2 "10:00:00" 10 (by decide) (by decide)
      timeToHours_100000).2 (by norm_num)
  · exact (isLate_spec.2.2 "09:30:00" (19 / 2) (by decide) (by decide)
      timeToHours_093000).1 (by norm_num)

/-- C9: a literal `"00:00:00"` check-in is treated as present: it is not a
sentinel, so `isLate` is `false` (not by sentinel short-circuit but because
`0 ≤ 9.5`), `getWorkingHours` takes the check-in-present branches, and the
parsed value `0` enters the arithmetic (with a sentinel check-out the
uncapped result is `17.0 - 0 = 17`, capped `7.5`). -/
theorem midnight_checkIn_present (r : AttendanceRecord) (cap : Bool)
    (h : r.Check_In = "00:00:00") :
    isLate r.Check_In = false ∧
    timeToHours r.Check_In = some 0 ∧
    getWorkingHours r cap = workingHoursCheckInPresent r cap ∧
    ((r.Check_Out = "" ∨ r.Check_Out = "N/A") →
      getWorkingHours r cap = if cap then some (15 / 2) else some 17) := by
  have hne1 : r.Check_In ≠ "" := by rw [h]; decide
  have hne2 : r.Check_In ≠ "N/A" := by rw [h]; decide
  have ht : timeToHours r.Check_In = some 0 := by rw [h]; exact timeToHours_000000
  refine ⟨?_, ht, ?_, ?_⟩
  · simp [isLate, hne1, hne2, ht, jgtB]
    norm_num
  · simp [getWorkingHours, hne1, hne2]
  · intro hout
    rw [getWorkingHours, if_neg (by rintro (he | he) <;> [exact hne1 he; exact hne2 he])]
    rw [workingHoursCheckInPresent]
    rw [if_pos hout, ht]
    rcases cap with _ | _
    · simp [jsub]
    · simp [jsub, jmin, jmax]
      norm_num

theorem midnight_checkIn_present_witness :
    getWorkingHours ⟨"E1", "A", 0, "00:00:00", "N/A", "N/A", "PRESENT"⟩ true = some (15 / 2) := by
  have h := midnight_checkIn_present ⟨"E1", "A", 0, "00:00:00", "N/A", "N/A", "PRESENT"⟩ true rfl
  simpa using h.2.2.2 (Or.inr rfl)

/-- C10: when the `Working_Hours` field is the sentinel `"N/A"` or does not
parse to a number, the capped mode is exactly the clamp of the uncapped
mode into `[0, 7.5]` (`NaN` results agree on both sides). -/
theorem capped_uncapped_clamp_relation (r : AttendanceRecord)
    (h : jsParseFloat r.Working_Hours = none ∨ r.Working_Hours = "N/A") :
    getWorkingHours r true = jmax (some 0) (jmin (getWorkingHours r false) (some (15 / 2))) := by
  simp only [getWorkingHours, workingHoursCheckInPresent]
  by_cases hin : r.Check_In = "" ∨ r.Check_In = "N/A"
  · rw [if_pos hin, if_pos hin]
    by_cases hout : r.Check_Out = "" ∨ r.Check_Out = "N/A"
    · rw [if_neg (not_not_intro hout), if_neg (not_not_intro hout)]
      norm_num [jmax, jmin, min_def, max_def]
    · rw [if_pos hout, if_pos hout]
      simp
  · rw [if_neg hin, if_neg hin]
    by_cases hout : r.Check_Out = "" ∨ r.Check_Out = "N/A"
    · rw [if_pos hout, if_pos hout]
      simp
    · rw [if_neg hout, if_neg hout]
      have hcond : ¬((jsParseFloat r.Working_Hours).isSome = true ∧ r.Working_Hours ≠ "N/A") := by
        rintro ⟨ha, hb⟩
        rcases h with h | h
        · rw [h] at ha; simp at ha
        · exact hb h
      rw [if_neg hcond, if_neg hcond]
      simp

theorem capped_uncapped_clamp_relation_witness :
    getWorkingHours ⟨"E1", "A", 0, "09:00:00", "18:00:00", "N/A", "PRESENT"⟩ true =
      jmax (some 0) (jmin
        (getWorkingHours ⟨"E1", "A", 0, "09:00:00", "18:00:00", "N/A", "PRESENT"⟩ false)
        (some (15 / 2))) :=
  capped_uncapped_clamp_relation _ (Or.inr rfl)

/-- C2 fails as stated: a record with both times present and a numeric
negative `Working_Hours` field gets that value capped only from above, so
the capped working hours are `-2`, outside `[0, 7.5]`. -/
theorem cappedWorkingHours_negative_reported_counterexample :
    getWorkingHours ⟨"E1", "A", 0, "09:00:00", "17:00:00", "-2", "PRESENT"⟩ true = some (-2) ∧
    ¬((0 : ℚ) ≤ -2 ∧ (-2 : ℚ) ≤ 15 / 2) := by
  constructor
  · have hcond : (jsParseFloat ("-2" : String)).isSome = true ∧ ("-2" : String) ≠ "N/A" := by
      rw [jsParseFloat_neg2]; exact ⟨rfl, by decide⟩
    simp only [getWorkingHours, workingHoursCheckInPresent]
    rw [if_neg (by decide), if_neg (by decide), if_pos hcond, jsParseFloat_neg2]
    norm_num [jmin, min_def]
  · norm_num

/-- C2 amended: when both time fields parse to numbers (sentinels parse to
`0`) and the `Working_Hours` field, whenever it parses numerically, is
nonnegative, the capped working hours lie in `[0, 7.5]`. -/
theorem cappedWorkingHours_bounds (r : AttendanceRecord)
    (hin : (timeToHours r.Check_In).isSome = true)
    (hout : (timeToHours r.Check_Out).isSome = true)
    (hwh : ∀ q : ℚ, jsParseFloat r.Working_Hours = some q → 0 ≤ q) :
    ∃ q : ℚ, getWorkingHours r true = some q ∧ 0 ≤ q ∧ q ≤ 15 / 2 := by
  obtain ⟨ci, hci⟩ := Option.isSome_iff_exists.mp hin
  obtain ⟨co, hco⟩ := Option.isSome_iff_exists.mp hout
  simp only [getWorkingHours, workingHoursCheckInPresent]
  by_cases h1 : r.Check_In = "" ∨ r.Check_In = "N/A"
  · rw [if_pos h1]
    by_cases h2 : r.Check_Out = "" ∨ r.Check_Out = "N/A"
    · rw [if_neg (not_not_intro h2)]
      exact ⟨0, rfl, le_refl 0, by norm_num⟩
    · rw [if_pos h2]
      refine ⟨max 0 (min (co - 19 / 2) (15 / 2)), ?_, le_max_left _ _,
        max_le (by norm_num) (min_le_right _ _)⟩
      simp [hco, jsub, jmin, jmax]
  · rw [if_neg h1]
    by_cases h2 : r.Check_Out = "" ∨ r.Check_Out = "N/A"
    · rw [if_pos h2]
      refine ⟨max 0 (min (17 - ci) (15 / 2)), ?_, le_max_left _ _,
        max_le (by norm_num) (min_le_right _ _)⟩
      simp [hci, jsub, jmin, jmax]
    · rw [if_neg h2]
      by_cases h3 : (jsParseFloat r.Working_Hours).isSome = true ∧ r.Working_Hours ≠ "N/A"
      · obtain ⟨w, hw⟩ := Option.isSome_iff_exists.mp h3.1
        rw [if_pos h3]
        refine ⟨min w (15 / 2), ?_, le_min (hwh w hw) (by norm_num), min_le_right _ _⟩
        simp [hw, jmin]
      · rw [if_neg h3]
        refine ⟨max 0 (min (co - ci) (15 / 2)), ?_, le_max_left _ _,
          max_le (by norm_num) (min_le_right _ _)⟩
        simp [hci, hco, jsub, jmin, jmax]

theorem cappedWorkingHours_bounds_witness :
    ∃ q : ℚ,
      getWorkingHours ⟨"E1", "A", 0, "09:00:00", "18:00:00", "N/A", "PRESENT"⟩ true = some q ∧
      0 ≤ q ∧ q ≤ 15 / 2 :=
  cappedWorkingHours_bounds _
    (by rw [timeToHours_090000]; rfl)
    (by rw [timeToHours_180000]; rfl)
    (by intro q hq; rw [jsParseFloat_na] at hq; exact absurd hq (by simp))

/-- C8: on well-formed two-digit `HH:MM:SS` strings the time parser is
monotone in time-of-day, and it maps `"00:00:00"` to `0` and `"23:59:59"`
to `23 + 59/60 + 59/3600`. -/
theorem timeToHours_monotone_endpoints
    (h1 m1 s1 h2 m2 s2 : ℕ)
    (hb1 : h1 < 24) (hb2 : m1 < 60) (hb3 : s1 < 60)
    (hb4 : h2 < 24) (hb5 : m2 < 60) (hb6 : s2 < 60)
    (hle : h1 * 3600 + m1 * 60 + s1 ≤ h2 * 3600 + m2 * 60 + s2) :
    (∃ q1 q2 : ℚ, timeToHours (mkClock h1 m1 s1) = some q1 ∧
      timeToHours (mkClock h2 m2 s2) = some q2 ∧ q1 ≤ q2) ∧
    timeToHours "00:00:00" = some 0 ∧
    timeToHours "23:59:59" = some (23 + 59 / 60 + 59 / 3600) := by
  refine ⟨⟨_, _, timeToHours_mkClock h1 m1 s1 (by omega) (by omega) (by omega),
    timeToHours_mkClock h2 m2 s2 (by omega) (by omega) (by omega), ?_⟩,
    timeToHours_000000, ?_⟩
  · have hc : ((h1 * 3600 + m1 * 60 + s1 : ℕ) : ℚ) ≤
        ((h2 * 3600 + m2 * 60 + s2 : ℕ) : ℚ) := by exact_mod_cast hle
    push_cast at hc
    linarith
  · rw [show ("23:59:59" : String) = mkClock 23 59 59 from by decide,
      timeToHours_mkClock 23 59 59 (by norm_num) (by norm_num) (by norm_num)]
    norm_num

theorem timeToHours_monotone_endpoints_witness :
    (∃ q1 q2 : ℚ, timeToHours (mkClock 9 0 0) = some q1 ∧
      timeToHours (mkClock 10 30 0) = some q2 ∧ q1 ≤ q2) ∧
    timeToHours "00:00:00" = some 0 ∧
    timeToHours "23:59:59" = some (23 + 59 / 60 + 59 / 3600) :=
  timeToHours_monotone_endpoints 9 0 0 10 30 0 (by norm_num) (by norm_num)
    (by norm_num) (by norm_num) (by norm_num) (by norm_num) (by norm_num)

theorem checkInBucket_lt (r : AttendanceRecord) : checkInBucket r < 8 := by
  simp only [checkInBucket]
  split_ifs <;> norm_num

/-- C5: every record contributes to exactly one of the eight check-in
buckets (the seven time-of-day buckets plus Missing Check-In, in the
source's fixed order), so the bucket counts sum to the record count. -/
theorem checkInDistribution_partition (records : List AttendanceRecord) :
    ((checkInDistributionData records).map Prod.snd).sum = records.length ∧
    (checkInDistributionData records).map Prod.fst = checkInBinNames := by
  constructor
  · have key : ∀ l : List AttendanceRecord,
        ((List.range 8).map (fun i => l.countP (fun r => checkInBucket r == i))).sum
          = l.length := by
      intro l
      induction l with
      | nil => simp
      | cons r t ih =>
        have hb : checkInBucket r < 8 := checkInBucket_lt r
        have h8 : checkInBucket r = 0 ∨ checkInBucket r = 1 ∨ checkInBucket r = 2 ∨
            checkInBucket r = 3 ∨ checkInBucket r = 4 ∨ checkInBucket r = 5 ∨
            checkInBucket r = 6 ∨ checkInBucket r = 7 := by omega
        simp only [List.countP_cons]
        rw [show List.range 8 = [0, 1, 2, 3, 4, 5, 6, 7] from rfl] at ih ⊢
        simp only [List.map_cons, List.map_nil, List.sum_cons, List.sum_nil] at ih ⊢
        rcases h8 with h | h | h | h | h | h | h | h <;> simp [h] <;> omega
    rw [checkInDistributionData, List.map_map]
    exact key records
  · rw [checkInDistributionData, List.map_map]
    rfl

/-- C3 fails as stated: for the empty record set with both range bounds
given, every non-weekend day of the range is reported absent (day 4 is
Monday 1970-01-05), and the average is the number `0`, not the string
`"0.00"`. -/
theorem emptyRecords_absentDates_counterexample :
    getAbsentDates [] (some 4) (some 4) = [(4, "Monday")] ∧
    avgWorkingHours [] = JSVal.num 0 ∧
    JSVal.num 0 ≠ JSVal.str "0.00" := by
  refine ⟨?_, rfl, by decide⟩
  decide

/-- C3 amended: on the empty record set the aggregates degrade without
failing: `totalAttendance` is `0`, `avgWorkingHours` is the number `0`
(not the string `"0.00"`), `absentDates` is empty when a bound is missing,
and with both bounds given it lists exactly the non-weekend days of the
range. -/
theorem emptyRecords_aggregates_degrade :
    totalAttendance [] = 0 ∧
    avgWorkingHours [] = JSVal.num 0 ∧
    getAbsentDates [] none none = [] ∧
    ∀ s e : ℕ, getAbsentDates [] (some s) (some e) =
      ((List.range' s (e + 1 - s)).filter (fun d => !(isWeekendDay d))).map
        (fun d => (d, weekdayName d)) := by
  refine ⟨rfl, rfl, rfl, ?_⟩
  intro s e
  simp [getAbsentDates]

/-- C4: with both bounds given, a day `d` of the inclusive range appears
in the absent list (paired with its weekday name) exactly when either no
record carries date `d` and `d` is not a Saturday or Sunday, or some
record carries date `d` with status `ABSENT`; the list is strictly
ascending in date and every entry's second component is the weekday name
of its first. -/
theorem absentDates_characterization (records : List AttendanceRecord)
    (s e d : ℕ) (hsd : s ≤ d) (hde : d ≤ e) :
    ((d, weekdayName d) ∈ getAbsentDates records (some s) (some e) ↔
      ((¬ ∃ r ∈ records, r.Date = d) ∧ isWeekendDay d = false) ∨
      (∃ r ∈ records, r.Date = d ∧ r.Status = "ABSENT")) ∧
    (getAbsentDates records (some s) (some e)).Pairwise (fun p q => p.1 < q.1) ∧
    (∀ p ∈ getAbsentDates records (some s) (some e), p.2 = weekdayName p.1) := by
  refine ⟨?_, ?_, ?_⟩
  · have hrange : d ∈ List.range' s (e + 1 - s) :=
      List.mem_range'.2 ⟨d - s, by omega, by omega⟩
    constructor
    · intro hmem
      simp only [getAbsentDates, List.mem_map] at hmem
      obtain ⟨a, ha, heq⟩ := hmem
      have had : a = d := congrArg Prod.fst heq
      subst had
      rw [List.mem_filter] at ha
      have hp := ha.2
      simp only [Bool.or_eq_true, Bool.and_eq_true, Bool.not_eq_true',
        List.find?_isSome, Bool.and_eq_true, beq_iff_eq] at hp
      rcases hp with ⟨hc, hw⟩ | ⟨r, hr, hrd, hrs⟩
      · have hcm : ¬ a ∈ records.map (fun r => r.Date) := by
          simpa [List.contains, List.elem_eq_mem] using hc
        refine Or.inl ⟨?_, hw⟩
        rintro ⟨r, hr, hrd⟩
        exact hcm (List.mem_map.2 ⟨r, hr, hrd⟩)
      · exact Or.inr ⟨r, hr, hrd, hrs⟩
    · intro hcond
      simp only [getAbsentDates, List.mem_map]
      refine ⟨d, ?_, rfl⟩
      rw [List.mem_filter]
      refine ⟨hrange, ?_⟩
      simp only [Bool.or_eq_true, Bool.and_eq_true, Bool.not_eq_true',
        List.find?_isSome, beq_iff_eq]
      rcases hcond with ⟨hnone, hw⟩ | ⟨r, hr, hrd, hrs⟩
      · refine Or.inl ⟨?_, hw⟩
        simp only [List.contains, List.elem_eq_mem, List.mem_map, decide_eq_false_iff_not]
        intro ⟨r, hr, hrd⟩
        exact hnone ⟨r, hr, hrd⟩
      · exact Or.inr ⟨r, hr, by simp [hrd, hrs]⟩
  · exact List.pairwise_map.mpr
      (List.Pairwise.filter _ (List.pairwise_lt_range' s (e + 1 - s)))
  · intro p hp
    simp only [getAbsentDates, List.mem_map] at hp
    obtain ⟨a, _, heq⟩ := hp
    rw [← heq]

theorem absentDates_characterization_witness :
    (5, weekdayName 5) ∈
      getAbsentDates [⟨"E1", "A", 5, "", "", "N/A", "ABSENT"⟩] (some 4) (some 6) :=
  ((absentDates_characterization [⟨"E1", "A", 5, "", "", "N/A", "ABSENT"⟩]
      4 6 5 (by norm_num) (by norm_num)).1).mpr
    (Or.inr ⟨⟨"E1", "A", 5, "", "", "N/A", "ABSENT"⟩, by simp, rfl, rfl⟩)

/-- A record with a full 9:30-17:00 day and no reported working hours:
its capped working hours are the policy maximum `7.5`. -/
def rFullDay : AttendanceRecord := ⟨"E1", "A", 0, "09:30:00", "17:00:00", "N/A", "PRESENT"⟩

/-- A record with neither clock time recorded: its capped working hours
are `0`. -/
def rNoTimes : AttendanceRecord := ⟨"E1", "A", 1, "", "", "N/A", "ABSENT"⟩

theorem gwh_rFullDay : getWorkingHours rFullDay true = some (15 / 2) := by
  have hcond : ¬((jsParseFloat (rFullDay.Working_Hours)).isSome = true ∧
      rFullDay.Working_Hours ≠ "N/A") := by
    rintro ⟨ha, _⟩
    rw [show rFullDay.Working_Hours = "N/A" from rfl, jsParseFloat_na] at ha
    simp at ha
  simp only [getWorkingHours, workingHoursCheckInPresent]
  rw [if_neg (by decide), if_neg (by decide), if_neg hcond,
    show rFullDay.Check_Out = "17:00:00" from rfl,
    show rFullDay.Check_In = "09:30:00" from rfl,
    timeToHours_170000, timeToHours_093000]
  norm_num [jsub, jmin, jmax, min_def, max_def]

theorem gwh_rNoTimes : getWorkingHours rNoTimes true = some 0 := by
  simp [getWorkingHours, rNoTimes]

theorem toFixed2_eval (q : ℚ) (n : ℕ) (hq : ¬ q < 0) (hn : ⌊q * 100 + 1 / 2⌋ = (n : ℤ)) :
    toFixed2 (some q) =
      "" ++ Nat.repr (n / 100) ++ "." ++
        (if n % 100 < 10 then "0" else "") ++ Nat.repr (n % 100) := by
  simp only [toFixed2]
  rw [if_neg hq, if_neg hq, hn]
  norm_num

theorem toFixed2_375 : toFixed2 (some (15 / 4)) = "3.75" := by
  rw [toFixed2_eval (15 / 4) 375 (by norm_num) (by norm_num)]
  decide

theorem toFixed2_750 : toFixed2 (some (15 / 2)) = "7.50" := by
  rw [toFixed2_eval (15 / 2) 750 (by norm_num) (by norm_num)]
  decide

theorem toFixed2_zero : toFixed2 (some 0) = "0.00" := by
  rw [toFixed2_eval 0 0 (by norm_num) (by norm_num)]
  decide

/-- C1 fails as stated: with one full 7.5-hour record and one zero-hours
record, the source divides the sum by ALL records (`(7.5 + 0) / 2`), not
by the positive subset (`7.5 / 1`), so it reports `"3.75"` where the claim
demands `"7.50"`. -/
theorem averageWorkingHours_positive_subset_counterexample :
    avgWorkingHours [rFullDay, rNoTimes] = JSVal.str "3.75" ∧
    claimedAvgWorkingHours [rFullDay, rNoTimes] = JSVal.str "7.50" ∧
    avgWorkingHours [rFullDay, rNoTimes] ≠ claimedAvgWorkingHours [rFullDay, rNoTimes] := by
  have hsum : sumWorkingHours [rFullDay, rNoTimes] = some (15 / 2) := by
    simp only [sumWorkingHours, List.foldl_cons, List.foldl_nil, gwh_rFullDay,
      gwh_rNoTimes, jadd]
    norm_num
  have havg : avgWorkingHours [rFullDay, rNoTimes] = JSVal.str "3.75" := by
    rw [avgWorkingHours, if_pos (by norm_num), hsum]
    have hd : jdiv (some ((15 : ℚ) / 2)) (([rFullDay, rNoTimes].length : ℕ) : ℚ)
        = some (15 / 4) := by
      simp [jdiv]
      norm_num
    rw [hd, toFixed2_375]
  have hjgt1 : jgtB (getWorkingHours rFullDay true) (some 0) = true := by
    rw [gwh_rFullDay]
    simp only [jgtB, decide_eq_true_eq]
    norm_num
  have hjgt2 : jgtB (getWorkingHours rNoTimes true) (some 0) = false := by
    rw [gwh_rNoTimes]
    simp [jgtB]
  have hfil : [rFullDay, rNoTimes].filter
      (fun r => jgtB (getWorkingHours r true) (some 0)) = [rFullDay] := by
    simp [List.filter_cons, hjgt1, hjgt2]
  have hclaimed : claimedAvgWorkingHours [rFullDay, rNoTimes] = JSVal.str "7.50" := by
    simp only [claimedAvgWorkingHours, hfil]
    rw [if_pos (by norm_num)]
    simp only [List.foldl_cons, List.foldl_nil, gwh_rFullDay, jadd, List.length_cons,
      List.length_nil]
    have hd : jdiv (some ((0 : ℚ) + 15 / 2)) (((0 + 1 : ℕ) : ℚ)) = some (15 / 2) := by
      simp [jdiv]
    rw [hd, toFixed2_750]
  exact ⟨havg, hclaimed, by rw [havg, hclaimed]; decide⟩

/-- C1 amended: for a non-empty record set the source's average is the sum
of capped working hours over ALL records divided by the total record
count, rendered with two decimals; in particular, when every record's
capped hours are `0` (so no record has strictly positive hours) the
result is `"0.00"`. -/
theorem averageWorkingHours_mean_over_all_records (records : List AttendanceRecord)
    (h : records ≠ []) :
    avgWorkingHours records = JSVal.str (specMeanAllRecords records) ∧
    ((∀ r ∈ records, getWorkingHours r true = some 0) →
      avgWorkingHours records = JSVal.str "0.00") := by
  have hlen : 0 < records.length := List.length_pos.2 h
  constructor
  · rw [avgWorkingHours, if_pos hlen, specMeanAllRecords]
  · intro hz
    have key : ∀ (l : List AttendanceRecord),
        (∀ r ∈ l, getWorkingHours r true = some 0) →
        ∀ q : ℚ, l.foldl (fun acc r => jadd acc (getWorkingHours r true)) (some q)
          = some q := by
      intro l
      induction l with
      | nil => intro _ q; rfl
      | cons a t ih =>
        intro hz0 q
        simp only [List.foldl_cons]
        rw [hz0 a (List.mem_cons_self a t),
          show jadd (some q) (some 0) = some q by simp [jadd]]
        exact ih (fun r hr => hz0 r (List.mem_cons_of_mem a hr)) q
    have hsum : sumWorkingHours records = some 0 := key records hz 0
    rw [avgWorkingHours, if_pos hlen, hsum,
      show jdiv (some (0 : ℚ)) ((records.length : ℕ) : ℚ) = some 0 by simp [jdiv],
      toFixed2_zero]

theorem averageWorkingHours_mean_over_all_records_witness :
    avgWorkingHours [rNoTimes] = JSVal.str (specMeanAllRecords [rNoTimes]) ∧
    ((∀ r ∈ [rNoTimes], getWorkingHours r true = some 0) →
      avgWorkingHours [rNoTimes] = JSVal.str "0.00") :=
  averageWorkingHours_mean_over_all_records [rNoTimes] (by simp)

end Biometrics
